import Mathlib

/-!
# Verification of the Helios/Atto editor core (`src/main.rs`)

Shallow embedding of the editing/viewport/dispatch engine of the `Atto`
terminal editor.  Strings are modelled as `List Char`, the line buffer as
`List (List Char)`, `usize` as `Nat`.  Operations that can panic in Rust
(out-of-bounds indexing, `String::insert`/`remove`/`split_off` past the end,
arithmetic underflow under debug overflow checks) return `Option Atto`,
where `none` models the panic.  Fields and function names follow the source.
-/

/-- Key codes of the crossterm events the dispatcher inspects
(`crossterm::event::KeyCode`, restricted to the constructors the source
matches on; every other code is collapsed into `otherKey`). -/
inductive KeyCode where
  | char : Char → KeyCode
  | enter : KeyCode
  | backKey : KeyCode
  | esc : KeyCode
  | up : KeyCode
  | down : KeyCode
  | left : KeyCode
  | right : KeyCode
  | tab : KeyCode
  | pageUp : KeyCode
  | pageDown : KeyCode
  | otherKey : KeyCode
deriving DecidableEq, Repr

/-- Key modifiers (`crossterm::event::KeyModifiers`, restricted to the
values the source compares against; other combinations collapse into
`OTHERM`). -/
inductive KeyModifiers where
  | NONE : KeyModifiers
  | CONTROL : KeyModifiers
  | SHIFT : KeyModifiers
  | ALT : KeyModifiers
  | OTHERM : KeyModifiers
deriving DecidableEq, Repr

/-- `struct KeyBindings` (main.rs:26-33). -/
structure KeyBindings where
  save : KeyCode × KeyModifiers
  quit : KeyCode × KeyModifiers
  move_up : KeyCode × KeyModifiers
  move_down : KeyCode × KeyModifiers
  move_left : KeyCode × KeyModifiers
  move_right : KeyCode × KeyModifiers
deriving DecidableEq, Repr

/-- `struct Atto` (main.rs:35-51). -/
structure Atto where
  cursor_x : Nat
  cursor_y : Nat
  cursor_offset_x : Nat
  cursor_offset_y : Nat
  buffer : List (List Char)
  terminal_height : Nat
  terminal_width : Nat
  filename : Option (List Char)
  show_binds : Bool
  scroll_offset : Nat
  horizontal_scroll_offset : Nat
  key_bindings : KeyBindings
  command_mode : Bool
  command_input : List Char
  vim_mode : Bool
deriving DecidableEq, Repr

/-- Checked `usize` subtraction: `none` models the debug-mode panic on
underflow (in release mode the wrapped value is immediately used as a
buffer index far out of bounds, which panics as well). -/
def checkedSub (a b : Nat) : Option Nat :=
  if b ≤ a then some (a - b) else none

/-- `self.buffer[i]`: `none` models the index-out-of-bounds panic. -/
def getLine (buf : List (List Char)) (i : Nat) : Option (List Char) :=
  buf.get? i

/-- The `match preset` table of `Atto::new` (main.rs:56-97). -/
def resolvePreset (preset : List Char) : KeyBindings :=
  if preset = "atto".data then
    { save := (.char 'w', .CONTROL), quit := (.char 'q', .CONTROL),
      move_up := (.up, .NONE), move_down := (.down, .NONE),
      move_left := (.left, .NONE), move_right := (.right, .NONE) }
  else if preset = "nano".data then
    { save := (.char 'o', .CONTROL), quit := (.char 'x', .CONTROL),
      move_up := (.up, .NONE), move_down := (.down, .NONE),
      move_left := (.left, .NONE), move_right := (.right, .NONE) }
  else if preset = "micro".data then
    { save := (.char 's', .CONTROL), quit := (.char 'q', .CONTROL),
      move_up := (.up, .NONE), move_down := (.down, .NONE),
      move_left := (.left, .NONE), move_right := (.right, .NONE) }
  else if preset = "emacs".data then
    { save := (.char 'x', .CONTROL), quit := (.char 'c', .CONTROL),
      move_up := (.char 'p', .CONTROL), move_down := (.char 'n', .CONTROL),
      move_left := (.char 'b', .CONTROL), move_right := (.char 'f', .CONTROL) }
  else
    { save := (.char 't', .CONTROL), quit := (.char 'w', .CONTROL),
      move_up := (.char 'k', .CONTROL), move_down := (.char 'j', .CONTROL),
      move_left := (.char 'h', .CONTROL), move_right := (.char 'l', .CONTROL) }

/-- `Atto::new` (main.rs:54-115); the terminal size probe is passed in as
`(width, height)`. -/
def Atto.new (filename : Option (List Char)) (preset : List Char)
    (vim_mode : Bool) (width height : Nat) : Atto :=
  { cursor_y := 0
    cursor_x := 0
    cursor_offset_x := 5
    cursor_offset_y := 1
    buffer := [[]]
    terminal_height := height
    terminal_width := width
    filename := filename
    show_binds := false
    scroll_offset := 0
    horizontal_scroll_offset := 0
    key_bindings := resolvePreset preset
    command_input := []
    command_mode := false
    vim_mode := vim_mode }

/-- `Atto::read_file` (main.rs:117-131).  The external file read is passed
in as `contents`, already split into lines (`String::lines`); the empty
file is the empty list, matching `contents.is_empty()`. -/
def read_file (a : Atto) (contents : List (List Char)) : Atto :=
  match a.filename with
  | some _ =>
      { a with
        buffer := if contents = [] then [[]] else contents
        cursor_x := 0
        cursor_y := 0 }
  | none => a

/-- `Atto::page_up` (main.rs:268-277).  The trailing column clamp
(main.rs:276) runs after the if/else and is spelled out in each branch
here; in the `scroll_offset > 0` branch the new `cursor_y` equals the
decremented `scroll_offset`. -/
def page_up (a : Atto) : Option Atto :=
  if a.scroll_offset > 0 then
    match getLine a.buffer (a.scroll_offset - min a.scroll_offset a.terminal_height) with
    | none => none
    | some line =>
        some { a with
               scroll_offset := a.scroll_offset - min a.scroll_offset a.terminal_height,
               cursor_y := a.scroll_offset - min a.scroll_offset a.terminal_height,
               cursor_x := min a.cursor_x line.length }
  else
    match getLine a.buffer 0 with
    | none => none
    | some line => some { a with cursor_y := 0, cursor_x := min a.cursor_x line.length }

/-- `Atto::page_down` (main.rs:279-288).  Note `self.buffer.len() - 3` and
`... + self.terminal_height - 3`: `usize` subtractions that underflow on
short buffers.  The trailing column clamp (main.rs:287) is spelled out in
each branch. -/
def page_down (a : Atto) : Option Atto :=
  if a.scroll_offset + a.terminal_height < a.buffer.length then
    match checkedSub (a.scroll_offset +
        min a.terminal_height (a.buffer.length - a.scroll_offset - a.terminal_height) +
        a.terminal_height) 3 with
    | none => none
    | some cy =>
        match getLine a.buffer cy with
        | none => none
        | some line =>
            some { a with
                   scroll_offset := a.scroll_offset +
                     min a.terminal_height
                       (a.buffer.length - a.scroll_offset - a.terminal_height),
                   cursor_y := cy,
                   cursor_x := min a.cursor_x line.length }
  else
    match checkedSub a.buffer.length 3 with
    | none => none
    | some cy =>
        match getLine a.buffer cy with
        | none => none
        | some line => some { a with cursor_y := cy, cursor_x := min a.cursor_x line.length }

/-- `Atto::scroll_up` (main.rs:290-297). -/
def scroll_up (a : Atto) : Atto :=
  if a.scroll_offset > 0 then
    { a with
      scroll_offset := a.scroll_offset - 1,
      cursor_y := if a.cursor_y > 0 then a.cursor_y - 1 else a.cursor_y }
  else a

/-- `Atto::scroll_down` (main.rs:299-306). -/
def scroll_down (a : Atto) : Atto :=
  if a.scroll_offset + a.terminal_height < a.buffer.length then
    { a with
      scroll_offset := a.scroll_offset + 1,
      cursor_y := if a.cursor_y < a.buffer.length - 1 then a.cursor_y + 1 else a.cursor_y }
  else a

/-- `Atto::input_tab` (main.rs:352-357); `String::insert_str` panics when
the offset exceeds the line length. -/
def input_tab (a : Atto) : Option Atto :=
  if a.cursor_y < a.buffer.length then
    if a.cursor_x < a.terminal_width then
      match getLine a.buffer a.cursor_y with
      | none => none
      | some line =>
          if a.cursor_x ≤ line.length then
            some { a with
              buffer := a.buffer.set a.cursor_y
                (line.take a.cursor_x ++ [' ', ' ', ' ', ' '] ++ line.drop a.cursor_x)
              cursor_x := a.cursor_x + 4 }
          else none
    else some a
  else some a

/-- `Atto::move_up` (main.rs:359-367): decrement the row, pull the scroll
up by one if the new row left the window, clamp the column to the new
row's length. -/
def move_up (a : Atto) : Option Atto :=
  if a.cursor_y > 0 then
    match getLine a.buffer (a.cursor_y - 1) with
    | none => none
    | some line =>
        some { a with
               cursor_y := a.cursor_y - 1,
               scroll_offset := if a.cursor_y - 1 < a.scroll_offset then
                   a.scroll_offset - 1
                 else a.scroll_offset,
               cursor_x := min a.cursor_x line.length }
  else some a

/-- `Atto::move_down` (main.rs:369-377); `self.buffer.len() - 1` and
`self.terminal_height - 2` are checked `usize` subtractions. -/
def move_down (a : Atto) : Option Atto :=
  match checkedSub a.buffer.length 1 with
  | none => none
  | some lim =>
      if a.cursor_y < lim then
        match checkedSub a.terminal_height 2 with
        | none => none
        | some th2 =>
            match getLine a.buffer (a.cursor_y + 1) with
            | none => none
            | some line =>
                some { a with
                       cursor_y := a.cursor_y + 1,
                       scroll_offset := if a.cursor_y + 1 ≥ a.scroll_offset + th2 then
                           a.scroll_offset + 1
                         else a.scroll_offset,
                       cursor_x := min a.cursor_x line.length }
      else some a

/-- `Atto::move_left` (main.rs:379-386). -/
def move_left (a : Atto) : Atto :=
  if a.cursor_x > 0 then
    { a with
      cursor_x := a.cursor_x - 1,
      horizontal_scroll_offset := if a.cursor_x - 1 < a.horizontal_scroll_offset then
          a.horizontal_scroll_offset - 1
        else a.horizontal_scroll_offset }
  else a

/-- `Atto::move_right` (main.rs:388-395); the `&&` guard indexes the buffer
only after the bounds test, so the operation never panics. -/
def move_right (a : Atto) : Atto :=
  match getLine a.buffer a.cursor_y with
  | none => a
  | some line =>
      if a.cursor_x < line.length then
        { a with
          cursor_x := a.cursor_x + 1,
          horizontal_scroll_offset :=
            if a.cursor_x + 1 ≥ a.horizontal_scroll_offset + a.terminal_width then
              a.horizontal_scroll_offset + 7
            else a.horizontal_scroll_offset }
      else a

/-- `Atto::input_char` (main.rs:397-402).  The guard is
`cursor_y < buffer.len() && cursor_x < terminal_width - 1`; when it passes
but `cursor_x` exceeds the line length, `String::insert` panics. -/
def input_char (a : Atto) (c : Char) : Option Atto :=
  if a.cursor_y < a.buffer.length then
    match checkedSub a.terminal_width 1 with
    | none => none
    | some w1 =>
        if a.cursor_x < w1 then
          match getLine a.buffer a.cursor_y with
          | none => none
          | some line =>
              if a.cursor_x ≤ line.length then
                some { a with
                  buffer := a.buffer.set a.cursor_y
                    (line.take a.cursor_x ++ c :: line.drop a.cursor_x)
                  cursor_x := a.cursor_x + 1 }
              else none
        else some a
  else some a

/-- `Atto::new_line` (main.rs:404-412); `String::split_off` panics when the
offset exceeds the line length. -/
def new_line (a : Atto) : Option Atto :=
  match getLine a.buffer a.cursor_y with
  | none => none
  | some line =>
      if a.cursor_x ≤ line.length then
        some { a with
               buffer :=
                 (a.buffer.set a.cursor_y (line.take a.cursor_x)).take (a.cursor_y + 1) ++
                   line.drop a.cursor_x ::
                     (a.buffer.set a.cursor_y (line.take a.cursor_x)).drop (a.cursor_y + 1),
               cursor_y := a.cursor_y + 1,
               cursor_x := 0,
               scroll_offset := if a.cursor_y + 1 ≥ a.scroll_offset + a.terminal_height then
                   a.scroll_offset + 1
                 else a.scroll_offset }
      else none

/-- `Atto::backspace` (main.rs:414-427); `String::remove` and `Vec::remove`
panic past the end. -/
def backspace (a : Atto) : Option Atto :=
  if a.cursor_x > 0 then
    match getLine a.buffer a.cursor_y with
    | none => none
    | some line =>
        if a.cursor_x - 1 < line.length then
          some { a with
                 cursor_x := a.cursor_x - 1,
                 buffer := a.buffer.set a.cursor_y
                   (line.take (a.cursor_x - 1) ++ line.drop (a.cursor_x - 1 + 1)) }
        else none
  else if a.cursor_y > 0 then
    match getLine a.buffer a.cursor_y with
    | none => none
    | some current_line =>
        match getLine (a.buffer.take a.cursor_y ++ a.buffer.drop (a.cursor_y + 1))
            (a.cursor_y - 1) with
        | none => none
        | some prev =>
            some { a with
                   buffer := (a.buffer.take a.cursor_y ++
                       a.buffer.drop (a.cursor_y + 1)).set (a.cursor_y - 1)
                     (prev ++ current_line),
                   cursor_y := a.cursor_y - 1,
                   cursor_x := prev.length,
                   scroll_offset := if a.cursor_y - 1 < a.scroll_offset then
                       a.scroll_offset - 1
                     else a.scroll_offset }
  else some a

/-- `Atto::toggle_command_mode` (main.rs:222-227): flip the flag; when the
flip exits command mode, also clear the accumulated input. -/
def toggle_command_mode (a : Atto) : Atto :=
  if !(!a.command_mode) then
    { a with command_mode := !a.command_mode, command_input := [] }
  else { a with command_mode := !a.command_mode }

/-- `Atto::handle_command_input` (main.rs:229-233). -/
def handle_command_input (a : Atto) (c : Char) : Atto :=
  if a.command_mode then { a with command_input := a.command_input ++ [c] } else a

/-- `str::trim`, restricted to the ASCII whitespace recognised by
`Char.isWhitespace` (the recognised commands are ASCII, so the Unicode
extension of Rust's trim is irrelevant here). -/
def trimChars (s : List Char) : List Char :=
  ((s.dropWhile Char.isWhitespace).reverse.dropWhile Char.isWhitespace).reverse

/-- Result of one `Atto::execute_command` call: the session state it
leaves behind, whether `std::process::exit(0)` was reached, whether
`write_file` was attempted, and whether that attempt failed (the error is
only printed). -/
structure CmdResult where
  state : Atto
  terminated : Bool
  save_attempted : Bool
  save_failed : Bool
deriving DecidableEq, Repr

/-- `Atto::execute_command` (main.rs:240-265).  The fallible `write_file`
is abstracted by `saveOk`.  For `"q"`/`"wq"` the process exits inside the
match, before the trailing clear/toggle. -/
def execute_command (a : Atto) (saveOk : Bool) : CmdResult :=
  if trimChars a.command_input = "q".data then
    { state := a, terminated := true, save_attempted := false, save_failed := false }
  else if trimChars a.command_input = "w".data then
    { state := toggle_command_mode { a with command_input := [] }
      terminated := false, save_attempted := true, save_failed := !saveOk }
  else if trimChars a.command_input = "wq".data then
    { state := a, terminated := true, save_attempted := true, save_failed := !saveOk }
  else
    { state := toggle_command_mode { a with command_input := [] }
      terminated := false, save_attempted := false, save_failed := false }

/-- Outcome of dispatching one key event in `Atto::run`'s loop body
(main.rs:152-207): the loop continues with a new state, `break`s out
(quit binding), exits the process (`execute_command` on `q`/`wq`), or
propagates an I/O error through `?` (`write_file`/`read_file` in the
non-vim branch). -/
inductive KeyStepResult where
  | cont : Atto → KeyStepResult
  | quitBreak : KeyStepResult
  | exited : Atto → KeyStepResult
  | ioError : KeyStepResult
deriving DecidableEq, Repr

/-- The `vim_mode == true` branch of the key match (main.rs:154-185).
All its arms ignore the modifiers.  `saveOk` abstracts the fallible
`write_file` reached through `execute_command`. -/
def vim_key_step (a : Atto) (code : KeyCode) (saveOk : Bool) :
    Option KeyStepResult :=
  match code with
  | .char c =>
      if c = ':' then some (.cont (toggle_command_mode a))
      else if a.command_mode then some (.cont (handle_command_input a c))
      else (input_char a c).map .cont
  | .enter =>
      if a.command_mode then
        some (if (execute_command a saveOk).terminated then
                .exited (execute_command a saveOk).state
              else .cont (execute_command a saveOk).state)
      else (new_line a).map .cont
  | .backKey =>
      if a.command_mode then
        some (.cont { a with command_input := a.command_input.dropLast })
      else (backspace a).map .cont
  | .esc =>
      if a.command_mode then some (.cont (toggle_command_mode a))
      else some (.cont a)
  | _ => some (.cont a)

/-- The `vim_mode == false` branch of the key match (main.rs:187-206).
`saveOk`/`readOk` abstract the fallible `write_file`/`read_file` (a
failure propagates out of `run` via `?`); `fileLines` is the content a
successful `read_file` loads.  The source's two `Char` arms —
`(Char('r'), CONTROL)` before the structural keys and the catch-all
`(Char(v), _)` after them — are merged into one guarded arm; this is
sound because every pattern between them matches only non-`Char` codes. -/
def normal_key_step (a : Atto) (code : KeyCode) (mods : KeyModifiers)
    (saveOk readOk : Bool) (fileLines : List (List Char)) :
    Option KeyStepResult :=
  if (code, mods) = a.key_bindings.quit then some .quitBreak
  else if (code, mods) = a.key_bindings.save then
    some (if saveOk then .cont a else .ioError)
  else if (code, mods) = a.key_bindings.move_up then (move_up a).map .cont
  else if (code, mods) = a.key_bindings.move_down then (move_down a).map .cont
  else if (code, mods) = a.key_bindings.move_left then some (.cont (move_left a))
  else if (code, mods) = a.key_bindings.move_right then some (.cont (move_right a))
  else
    match code, mods with
    | .up, _ => (move_up a).map .cont
    | .down, _ => (move_down a).map .cont
    | .left, _ => some (.cont (move_left a))
    | .right, _ => some (.cont (move_right a))
    | .char v, m =>
        if v = 'r' ∧ m = .CONTROL then
          some (if readOk then .cont (read_file a fileLines) else .ioError)
        else (input_char a v).map .cont
    | .tab, _ => (input_tab a).map .cont
    | .pageUp, _ => (page_up a).map .cont
    | .pageDown, _ => (page_down a).map .cont
    | .backKey, _ => (backspace a).map .cont
    | .enter, _ => (new_line a).map .cont
    | _, _ => some (.cont a)

/-- One key event through the loop body of `Atto::run`: the branch is
selected by the session's `vim_mode` flag (main.rs:153). -/
def key_step (a : Atto) (code : KeyCode) (mods : KeyModifiers)
    (saveOk readOk : Bool) (fileLines : List (List Char)) :
    Option KeyStepResult :=
  if a.vim_mode then vim_key_step a code saveOk
  else normal_key_step a code mods saveOk readOk fileLines

/-- The logical actions of the Normal-state dispatch, as the spec's §4.4
lists them: the six bound actions, the structural keys, insertion of a
printable character, and the silent ignore. -/
inductive NormalAction where
  | actQuit : NormalAction
  | actSave : NormalAction
  | actMoveUp : NormalAction
  | actMoveDown : NormalAction
  | actMoveLeft : NormalAction
  | actMoveRight : NormalAction
  | actReload : NormalAction
  | actTab : NormalAction
  | actPageUp : NormalAction
  | actPageDown : NormalAction
  | actBackspace : NormalAction
  | actEnter : NormalAction
  | actInsert : Char → NormalAction
  | actIgnore : NormalAction
deriving DecidableEq, Repr

/-- First-match resolution over an ordered trigger table. -/
def firstMatch (key : KeyCode × KeyModifiers) :
    List ((KeyCode × KeyModifiers) × NormalAction) → Option NormalAction
  | [] => none
  | (k, act) :: rest => if key = k then some act else firstMatch key rest

/-- The active KeyBindings table, in the order the dispatcher consults it
(quit, save, move up/down/left/right). -/
def bindingTable (kb : KeyBindings) :
    List ((KeyCode × KeyModifiers) × NormalAction) :=
  [ (kb.quit, .actQuit), (kb.save, .actSave),
    (kb.move_up, .actMoveUp), (kb.move_down, .actMoveDown),
    (kb.move_left, .actMoveLeft), (kb.move_right, .actMoveRight) ]

/-- The fixed structural keys of the Normal-state dispatch (arrow keys,
Ctrl+r reload, tab, page up/down, backspace, enter). -/
def structuralKey (code : KeyCode) (mods : KeyModifiers) : Option NormalAction :=
  match code, mods with
  | .up, _ => some .actMoveUp
  | .down, _ => some .actMoveDown
  | .left, _ => some .actMoveLeft
  | .right, _ => some .actMoveRight
  | .char v, m => if v = 'r' ∧ m = .CONTROL then some .actReload else none
  | .tab, _ => some .actTab
  | .pageUp, _ => some .actPageUp
  | .pageDown, _ => some .actPageDown
  | .backKey, _ => some .actBackspace
  | .enter, _ => some .actEnter
  | _, _ => none

/-- Spec-side resolution order (§4.4): (a) the active KeyBindings table,
then (b) the structural keys, then (c) printable character, else ignore;
first match wins. -/
def resolveNormal (kb : KeyBindings) (code : KeyCode) (mods : KeyModifiers) :
    NormalAction :=
  match firstMatch (code, mods) (bindingTable kb) with
  | some act => act
  | none =>
      match structuralKey code mods with
      | some act => act
      | none =>
          match code with
          | .char v => .actInsert v
          | _ => .actIgnore

/-- Execution of one resolved logical action. -/
def applyNormalAction (a : Atto) (act : NormalAction) (saveOk readOk : Bool)
    (fileLines : List (List Char)) : Option KeyStepResult :=
  match act with
  | .actQuit => some .quitBreak
  | .actSave => some (if saveOk then .cont a else .ioError)
  | .actMoveUp => (move_up a).map .cont
  | .actMoveDown => (move_down a).map .cont
  | .actMoveLeft => some (.cont (move_left a))
  | .actMoveRight => some (.cont (move_right a))
  | .actReload => some (if readOk then .cont (read_file a fileLines) else .ioError)
  | .actTab => (input_tab a).map .cont
  | .actPageUp => (page_up a).map .cont
  | .actPageDown => (page_down a).map .cont
  | .actBackspace => (backspace a).map .cont
  | .actEnter => (new_line a).map .cont
  | .actInsert v => (input_char a v).map .cont
  | .actIgnore => some (.cont a)

/-- The Normal-state dispatch written as the spec describes it: resolve
the event to a logical action by ordered matching, then execute it. -/
def spec_normal_step (a : Atto) (code : KeyCode) (mods : KeyModifiers)
    (saveOk readOk : Bool) (fileLines : List (List Char)) :
    Option KeyStepResult :=
  applyNormalAction a (resolveNormal a.key_bindings code mods) saveOk readOk fileLines

/-- The buffer-level effect of `Atto::new_line` (main.rs:405-406), the
spec's TextBuffer operation `split_line(row, col)`: split line `row` at
offset `col`, the tail becoming a new line at `row+1`.  It acts on the
line list alone. -/
def split_line (buf : List (List Char)) (row col : Nat) :
    Option (List (List Char)) :=
  match getLine buf row with
  | none => none
  | some line =>
      if col ≤ line.length then
        let buf0 := buf.set row (line.take col)
        some (buf0.take (row + 1) ++ line.drop col :: buf0.drop (row + 1))
      else none

/-- One session transition: a key event that leaves the loop running, or
a mouse-wheel event (main.rs:208-214). -/
inductive Step : Atto → Atto → Prop where
  | key : ∀ (a : Atto) (code : KeyCode) (mods : KeyModifiers)
      (saveOk readOk : Bool) (fileLines : List (List Char)) (a' : Atto),
      key_step a code mods saveOk readOk fileLines = some (.cont a') → Step a a'
  | wheelUp : ∀ a : Atto, Step a (scroll_up a)
  | wheelDown : ∀ a : Atto, Step a (scroll_down a)

/-- Session states reachable by `main`: `Atto::new` followed by
`Atto::read_file` (main.rs:490-491), then any number of loop steps. -/
inductive Reachable : Atto → Prop where
  | init : ∀ (filename : Option (List Char)) (preset : List Char)
      (vim_mode : Bool) (width height : Nat) (contents : List (List Char)),
      Reachable (read_file (Atto.new filename preset vim_mode width height) contents)
  | step : ∀ a a' : Atto, Reachable a → Step a a' → Reachable a'

/-- The spec's cursor-column invariant: `cursor_x` does not exceed the
length of the line under the cursor. -/
def colOK (a : Atto) : Bool :=
  a.cursor_x ≤ ((a.buffer.get? a.cursor_y).getD []).length

/-! ## Concrete session states used to evaluate the claims -/

/-- The startup state of a session opened on an empty (or absent) file
with an 80×24 terminal and the default `atto` preset: exactly what
`main` builds before entering the run loop. -/
def attoStart : Atto := read_file (Atto.new none "atto".data false 80 24) []

/-- Two-line buffer, cursor parked past the end of the first line once
scrolled: start on line 1 of `["a", "bb"]` at column 2 with the view
scrolled one line down. -/
def attoScrollCE : Atto :=
  { attoStart with buffer := [['a'], ['b', 'b']], cursor_y := 1, cursor_x := 2,
                   scroll_offset := 1 }

/-- Three-line buffer `["a", "b", "c"]`, cursor (1,1): a state on which
every row-changing operation succeeds. -/
def attoRowsW : Atto :=
  { attoStart with buffer := [['a'], ['b'], ['c']], cursor_y := 1, cursor_x := 1 }

/-- Buffer `["abcdef"]`, cursor (0,2), terminal width 3: the cursor is
inside the line but at the terminal-width guard of `input_char`. -/
def attoNarrow : Atto :=
  { attoStart with buffer := [['a', 'b', 'c', 'd', 'e', 'f']], cursor_x := 2,
                   terminal_width := 3 }

/-- Buffer `["a"]`, cursor (0,1): an in-bounds end-of-line insertion
point on a normal 80-column terminal. -/
def attoInsertW : Atto :=
  { attoStart with buffer := [['a']], cursor_x := 1 }

/-- Five-line buffer, viewport height 1, scrolled to line 1, cursor on
line 4 (far below the window). -/
def attoWheelCE : Atto :=
  { attoStart with buffer := [[], [], [], [], []], terminal_height := 1,
                   scroll_offset := 1, cursor_y := 4 }

/-- A vim-mode session in Normal state on buffer `["a", "b"]` with the
cursor on line 1. -/
def attoVim : Atto :=
  { attoStart with vim_mode := true, buffer := [['a'], ['b']], cursor_y := 1 }

/-- The same two-line Normal-state session with vim mode off. -/
def attoNoVim : Atto :=
  { attoStart with buffer := [['a'], ['b']], cursor_y := 1 }

/-- Buffer `["abc"]` with the cursor at (0,3), the split-line scenario
state. -/
def attoAbc : Atto :=
  { attoStart with buffer := [['a', 'b', 'c']], cursor_x := 3 }

/-- A command-mode session whose command line holds `wq`. -/
def attoWq : Atto :=
  { attoStart with vim_mode := true, command_mode := true,
                   command_input := ['w', 'q'] }

/-- A command-mode session whose command line holds `w`. -/
def attoCmdW : Atto :=
  { attoStart with vim_mode := true, command_mode := true,
                   command_input := ['w'] }

/-! ## Helper lemmas: the editing operations never touch `command_input` -/

theorem map_cont_eq {o : Option Atto} {a' : Atto}
    (h : o.map KeyStepResult.cont = some (.cont a')) : o = some a' := by
  cases o <;> simp_all

theorem move_up_command_input {a a' : Atto} (h : move_up a = some a') :
    a'.command_input = a.command_input := by
  unfold move_up getLine at h
  repeat' split at h
  all_goals (try (obtain ⟨-, h⟩ := h))
  all_goals (first | (cases h; rfl) | simp_all)

theorem move_down_command_input {a a' : Atto} (h : move_down a = some a') :
    a'.command_input = a.command_input := by
  unfold move_down getLine checkedSub at h
  repeat' split at h
  all_goals (try (obtain ⟨-, h⟩ := h))
  all_goals (first | (cases h; rfl) | simp_all)

theorem page_up_command_input {a a' : Atto} (h : page_up a = some a') :
    a'.command_input = a.command_input := by
  unfold page_up getLine at h
  repeat' split at h
  all_goals (try (obtain ⟨-, h⟩ := h))
  all_goals (first | (cases h; rfl) | simp_all)

theorem page_down_command_input {a a' : Atto} (h : page_down a = some a') :
    a'.command_input = a.command_input := by
  unfold page_down getLine checkedSub at h
  repeat' split at h
  all_goals (try (obtain ⟨-, h⟩ := h))
  all_goals (first | (cases h; rfl) | simp_all)

theorem input_char_command_input {a : Atto} {c : Char} {a' : Atto}
    (h : input_char a c = some a') : a'.command_input = a.command_input := by
  unfold input_char getLine checkedSub at h
  repeat' split at h
  all_goals (try (obtain ⟨-, h⟩ := h))
  all_goals (first | (cases h; rfl) | simp_all)

theorem input_tab_command_input {a a' : Atto} (h : input_tab a = some a') :
    a'.command_input = a.command_input := by
  unfold input_tab getLine at h
  repeat' split at h
  all_goals (try (obtain ⟨-, h⟩ := h))
  all_goals (first | (cases h; rfl) | simp_all)

theorem new_line_command_input {a a' : Atto} (h : new_line a = some a') :
    a'.command_input = a.command_input := by
  unfold new_line getLine at h
  repeat' split at h
  all_goals (try (obtain ⟨-, h⟩ := h))
  all_goals (first | (cases h; rfl) | simp_all)

theorem backspace_command_input {a a' : Atto} (h : backspace a = some a') :
    a'.command_input = a.command_input := by
  unfold backspace getLine at h
  repeat' split at h
  all_goals (try (obtain ⟨-, h⟩ := h))
  all_goals (first | (cases h; rfl) | simp_all)

theorem move_left_command_input (a : Atto) :
    (move_left a).command_input = a.command_input := by
  unfold move_left
  repeat' split
  all_goals rfl

theorem move_right_command_input (a : Atto) :
    (move_right a).command_input = a.command_input := by
  unfold move_right getLine
  repeat' split
  all_goals rfl

theorem scroll_up_command_input (a : Atto) :
    (scroll_up a).command_input = a.command_input := by
  unfold scroll_up
  repeat' split
  all_goals rfl

theorem scroll_down_command_input (a : Atto) :
    (scroll_down a).command_input = a.command_input := by
  unfold scroll_down
  repeat' split
  all_goals rfl

theorem read_file_command_input (a : Atto) (contents : List (List Char)) :
    (read_file a contents).command_input = a.command_input := by
  unfold read_file
  repeat' split
  all_goals rfl

theorem toggle_command_mode_command_input (a : Atto) :
    (toggle_command_mode a).command_input = [] ∨
    (toggle_command_mode a).command_input = a.command_input := by
  unfold toggle_command_mode
  split
  · exact Or.inl rfl
  · exact Or.inr rfl

theorem toggle_no_colon {a : Atto} (h : ':' ∉ a.command_input) :
    ':' ∉ (toggle_command_mode a).command_input := by
  rcases toggle_command_mode_command_input a with h' | h' <;> rw [h']
  · simp
  · exact h

theorem toggle_clear_command_input (a : Atto) :
    (toggle_command_mode { a with command_input := [] }).command_input = [] := by
  unfold toggle_command_mode
  split <;> rfl

theorem execute_command_cont_command_input (a : Atto) (saveOk : Bool)
    (h : (execute_command a saveOk).terminated = false) :
    (execute_command a saveOk).state.command_input = [] := by
  unfold execute_command at h ⊢
  by_cases h1 : trimChars a.command_input = "q".data
  · rw [if_pos h1] at h; simp at h
  · rw [if_neg h1] at h ⊢
    by_cases h2 : trimChars a.command_input = "w".data
    · rw [if_pos h2]; exact toggle_clear_command_input a
    · rw [if_neg h2] at h ⊢
      by_cases h3 : trimChars a.command_input = "wq".data
      · rw [if_pos h3] at h; simp at h
      · rw [if_neg h3]; exact toggle_clear_command_input a

theorem vim_key_step_no_colon {a a' : Atto} {code : KeyCode} {saveOk : Bool}
    (hk : vim_key_step a code saveOk = some (.cont a'))
    (h : ':' ∉ a.command_input) : ':' ∉ a'.command_input := by
  cases code with
  | char c =>
      simp only [vim_key_step] at hk
      by_cases hc : c = ':'
      · rw [if_pos hc] at hk
        simp only [Option.some.injEq, KeyStepResult.cont.injEq] at hk
        subst hk
        exact toggle_no_colon h
      · rw [if_neg hc] at hk
        by_cases hm : a.command_mode
        · rw [if_pos hm] at hk
          simp only [Option.some.injEq, KeyStepResult.cont.injEq] at hk
          subst hk
          unfold handle_command_input
          rw [if_pos hm]
          intro hmem
          rcases List.mem_append.mp hmem with hmem | hmem
          · exact h hmem
          · exact hc (List.mem_singleton.mp hmem).symm
        · rw [if_neg hm] at hk
          rw [input_char_command_input (map_cont_eq hk)]
          exact h
  | enter =>
      simp only [vim_key_step] at hk
      by_cases hm : a.command_mode
      · rw [if_pos hm] at hk
        by_cases ht : (execute_command a saveOk).terminated
        · rw [if_pos ht] at hk; simp at hk
        · rw [if_neg ht] at hk
          simp only [Option.some.injEq, KeyStepResult.cont.injEq] at hk
          subst hk
          rw [execute_command_cont_command_input a saveOk (Bool.not_eq_true _ ▸ ht)]
          simp
      · rw [if_neg hm] at hk
        rw [new_line_command_input (map_cont_eq hk)]
        exact h
  | backKey =>
      simp only [vim_key_step] at hk
      by_cases hm : a.command_mode
      · rw [if_pos hm] at hk
        simp only [Option.some.injEq, KeyStepResult.cont.injEq] at hk
        subst hk
        intro hmem
        exact h ((List.dropLast_sublist a.command_input).subset hmem)
      · rw [if_neg hm] at hk
        rw [backspace_command_input (map_cont_eq hk)]
        exact h
  | esc =>
      simp only [vim_key_step] at hk
      by_cases hm : a.command_mode
      · rw [if_pos hm] at hk
        simp only [Option.some.injEq, KeyStepResult.cont.injEq] at hk
        subst hk
        exact toggle_no_colon h
      · rw [if_neg hm] at hk
        simp only [Option.some.injEq, KeyStepResult.cont.injEq] at hk
        subst hk
        exact h
  | up => simp_all [vim_key_step]
  | down => simp_all [vim_key_step]
  | left => simp_all [vim_key_step]
  | right => simp_all [vim_key_step]
  | tab => simp_all [vim_key_step]
  | pageUp => simp_all [vim_key_step]
  | pageDown => simp_all [vim_key_step]
  | otherKey => simp_all [vim_key_step]

theorem normal_key_step_command_input {a a' : Atto} {code : KeyCode}
    {mods : KeyModifiers} {saveOk readOk : Bool} {fileLines : List (List Char)}
    (hk : normal_key_step a code mods saveOk readOk fileLines = some (.cont a')) :
    a'.command_input = a.command_input := by
  unfold normal_key_step at hk
  repeat' split at hk
  all_goals
    first
    | exact move_up_command_input (map_cont_eq hk)
    | exact move_down_command_input (map_cont_eq hk)
    | exact page_up_command_input (map_cont_eq hk)
    | exact page_down_command_input (map_cont_eq hk)
    | exact input_tab_command_input (map_cont_eq hk)
    | exact new_line_command_input (map_cont_eq hk)
    | exact backspace_command_input (map_cont_eq hk)
    | exact input_char_command_input (map_cont_eq hk)
    | (simp only [Option.some.injEq, KeyStepResult.cont.injEq] at hk
       subst hk
       first
       | rfl
       | exact move_left_command_input a
       | exact move_right_command_input a
       | exact read_file_command_input a fileLines)
    | simp_all

theorem step_no_colon {a a' : Atto} (hs : Step a a')
    (h : ':' ∉ a.command_input) : ':' ∉ a'.command_input := by
  cases hs with
  | key code mods saveOk readOk fileLines a' hk =>
      unfold key_step at hk
      by_cases hv : a.vim_mode
      · rw [if_pos hv] at hk
        exact vim_key_step_no_colon hk h
      · rw [if_neg hv] at hk
        rw [normal_key_step_command_input hk]
        exact h
  | wheelUp => rw [scroll_up_command_input]; exact h
  | wheelDown => rw [scroll_down_command_input]; exact h

theorem reachable_no_colon {a : Atto} (hr : Reachable a) :
    ':' ∉ a.command_input := by
  induction hr with
  | init filename preset vim_mode width height contents =>
      rw [read_file_command_input]
      simp [Atto.new]
  | step a a' _ hs ih => exact step_no_colon hs ih

/-! ## General list helpers -/

theorem lt_length_of_get? {α : Type} {l : List α} {i : Nat} {w : α}
    (h : l.get? i = some w) : i < l.length := by
  rcases List.get?_eq_some.mp h with ⟨h', -⟩
  exact h'

theorem set_get?_self {α : Type} : ∀ (l : List α) (n : Nat) (v : α),
    l.get? n = some v → l.set n v = l
  | [], _, _, h => by simp at h
  | x :: xs, 0, v, h => by
      rw [List.get?_cons_zero] at h
      cases h
      rfl
  | x :: xs, n+1, v, h => by
      rw [List.get?_cons_succ] at h
      show x :: xs.set n v = x :: xs
      rw [set_get?_self xs n v h]

/-- The code's Normal-state dispatch and the spec's ordered resolution
agree on every key event. -/
theorem normal_key_step_eq_spec (a : Atto) (code : KeyCode) (mods : KeyModifiers)
    (saveOk readOk : Bool) (fileLines : List (List Char)) :
    normal_key_step a code mods saveOk readOk fileLines =
      spec_normal_step a code mods saveOk readOk fileLines := by
  by_cases h1 : (code, mods) = a.key_bindings.quit
  · simp only [normal_key_step, spec_normal_step, resolveNormal, bindingTable, firstMatch,
               if_pos h1, applyNormalAction]
  by_cases h2 : (code, mods) = a.key_bindings.save
  · simp only [normal_key_step, spec_normal_step, resolveNormal, bindingTable, firstMatch,
               if_neg h1, if_pos h2, applyNormalAction]
  by_cases h3 : (code, mods) = a.key_bindings.move_up
  · simp only [normal_key_step, spec_normal_step, resolveNormal, bindingTable, firstMatch,
               if_neg h1, if_neg h2, if_pos h3, applyNormalAction]
  by_cases h4 : (code, mods) = a.key_bindings.move_down
  · simp only [normal_key_step, spec_normal_step, resolveNormal, bindingTable, firstMatch,
               if_neg h1, if_neg h2, if_neg h3, if_pos h4, applyNormalAction]
  by_cases h5 : (code, mods) = a.key_bindings.move_left
  · simp only [normal_key_step, spec_normal_step, resolveNormal, bindingTable, firstMatch,
               if_neg h1, if_neg h2, if_neg h3, if_neg h4, if_pos h5, applyNormalAction]
  by_cases h6 : (code, mods) = a.key_bindings.move_right
  · simp only [normal_key_step, spec_normal_step, resolveNormal, bindingTable, firstMatch,
               if_neg h1, if_neg h2, if_neg h3, if_neg h4, if_neg h5, if_pos h6,
               applyNormalAction]
  simp only [normal_key_step, spec_normal_step, resolveNormal, bindingTable, firstMatch,
             if_neg h1, if_neg h2, if_neg h3, if_neg h4, if_neg h5, if_neg h6]
  cases code with
  | char v =>
      cases mods <;> by_cases hv : v = 'r' <;>
        simp [structuralKey, applyNormalAction, hv]
  | enter => cases mods <;> simp [structuralKey, applyNormalAction]
  | backKey => cases mods <;> simp [structuralKey, applyNormalAction]
  | esc => cases mods <;> simp [structuralKey, applyNormalAction]
  | up => cases mods <;> simp [structuralKey, applyNormalAction]
  | down => cases mods <;> simp [structuralKey, applyNormalAction]
  | left => cases mods <;> simp [structuralKey, applyNormalAction]
  | right => cases mods <;> simp [structuralKey, applyNormalAction]
  | tab => cases mods <;> simp [structuralKey, applyNormalAction]
  | pageUp => cases mods <;> simp [structuralKey, applyNormalAction]
  | pageDown => cases mods <;> simp [structuralKey, applyNormalAction]
  | otherKey => cases mods <;> simp [structuralKey, applyNormalAction]

/-! ## The claims -/

/-- C1: for every session state whose command line reads `wq`, executing
the command first attempts the save and then terminates the session, for
both outcomes of the save — a failed save is recorded but does not
prevent termination. -/
theorem wq_always_terminates (a : Atto) (saveOk : Bool)
    (h : trimChars a.command_input = "wq".data) :
    (execute_command a saveOk).save_attempted = true ∧
    (execute_command a saveOk).terminated = true ∧
    (execute_command a saveOk).save_failed = !saveOk := by
  unfold execute_command
  rw [h]
  rw [if_neg (by decide), if_neg (by decide), if_pos rfl]
  exact ⟨rfl, rfl, rfl⟩

/-- C1 witness: a session whose command line holds `wq` and whose save
fails still terminates, with the failure recorded. -/
theorem wq_always_terminates_witness :
    (execute_command attoWq false).save_attempted = true ∧
    (execute_command attoWq false).terminated = true ∧
    (execute_command attoWq false).save_failed = !false :=
  wq_always_terminates attoWq false (by decide)

/-- C2: the claim that no core operation can panic on a buffer of length
≥ 1 is defeated by `page_down` on the reachable startup state (one empty
line, 80×24 terminal): `self.buffer.len() - 3` underflows `usize`, so the
PageDown key crashes the session instead of clamping. -/
theorem page_down_underflow_at_startup :
    Reachable attoStart ∧ attoStart.buffer.length = 1 ∧
    page_down attoStart = none ∧
    key_step attoStart .pageDown .NONE true true [] = none :=
  ⟨Reachable.init none "atto".data false 80 24 [], by decide, by decide, by decide⟩

/-- C3: for a valid row and a column clamped to the line length,
`split_line` (code: `new_line`) immediately followed by
`join_with_previous(row+1)` (code: `backspace` at the start of the new
line, exactly where `new_line` leaves the cursor) restores the whole
buffer — in particular line `row`'s content and the buffer length. -/
theorem split_join_round_trip (a : Atto) (line : List Char)
    (hrow : a.buffer.get? a.cursor_y = some line)
    (hcol : a.cursor_x ≤ line.length) :
    ((new_line a).bind backspace).map Atto.buffer = some a.buffer ∧
    ((new_line a).bind backspace).map (fun s => s.buffer.get? a.cursor_y) =
      some (some line) ∧
    ((new_line a).bind backspace).map (fun s => s.buffer.length) =
      some a.buffer.length := by
  have hy : a.cursor_y < a.buffer.length := lt_length_of_get? hrow
  have h1 : new_line a = some { a with
      buffer := (a.buffer.set a.cursor_y (line.take a.cursor_x)).take (a.cursor_y + 1) ++
        line.drop a.cursor_x ::
          (a.buffer.set a.cursor_y (line.take a.cursor_x)).drop (a.cursor_y + 1),
      cursor_y := a.cursor_y + 1, cursor_x := 0,
      scroll_offset := if a.cursor_y + 1 ≥ a.scroll_offset + a.terminal_height then
          a.scroll_offset + 1
        else a.scroll_offset } := by
    unfold new_line getLine
    rw [hrow]
    dsimp only
    rw [if_pos hcol]
  have hTlen : ((a.buffer.set a.cursor_y (line.take a.cursor_x)).take (a.cursor_y + 1)).length
      = a.cursor_y + 1 := by
    rw [List.length_take, List.length_set]; omega
  have hget1 : ((a.buffer.set a.cursor_y (line.take a.cursor_x)).take (a.cursor_y + 1) ++
      line.drop a.cursor_x ::
        (a.buffer.set a.cursor_y (line.take a.cursor_x)).drop (a.cursor_y + 1)).get?
      (a.cursor_y + 1) = some (line.drop a.cursor_x) := by
    rw [List.get?_append_right (by simp [hTlen])]
    rw [hTlen]
    simp
  have ht : ((a.buffer.set a.cursor_y (line.take a.cursor_x)).take (a.cursor_y + 1) ++
      line.drop a.cursor_x ::
        (a.buffer.set a.cursor_y (line.take a.cursor_x)).drop (a.cursor_y + 1)).take
      (a.cursor_y + 1) = (a.buffer.set a.cursor_y (line.take a.cursor_x)).take (a.cursor_y + 1) :=
    List.take_left' hTlen
  have hd : ((a.buffer.set a.cursor_y (line.take a.cursor_x)).take (a.cursor_y + 1) ++
      line.drop a.cursor_x ::
        (a.buffer.set a.cursor_y (line.take a.cursor_x)).drop (a.cursor_y + 1)).drop
      (a.cursor_y + 1 + 1) =
      (a.buffer.set a.cursor_y (line.take a.cursor_x)).drop (a.cursor_y + 1) := by
    have h' : a.cursor_y + 1 + 1 =
        ((a.buffer.set a.cursor_y (line.take a.cursor_x)).take (a.cursor_y + 1)).length + 1 := by
      rw [hTlen]
    rw [h', List.drop_append]
    simp
  have hbufEq : ((a.buffer.set a.cursor_y (line.take a.cursor_x)).take (a.cursor_y + 1) ++
      line.drop a.cursor_x ::
        (a.buffer.set a.cursor_y (line.take a.cursor_x)).drop (a.cursor_y + 1)).take
      (a.cursor_y + 1) ++
      ((a.buffer.set a.cursor_y (line.take a.cursor_x)).take (a.cursor_y + 1) ++
      line.drop a.cursor_x ::
        (a.buffer.set a.cursor_y (line.take a.cursor_x)).drop (a.cursor_y + 1)).drop
      (a.cursor_y + 1 + 1) = a.buffer.set a.cursor_y (line.take a.cursor_x) := by
    rw [ht, hd, List.take_append_drop]
  have hgetprev : (a.buffer.set a.cursor_y (line.take a.cursor_x)).get? a.cursor_y =
      some (line.take a.cursor_x) :=
    List.get?_set_eq_of_lt _ hy
  have hmain : ((new_line a).bind backspace).map Atto.buffer = some a.buffer := by
    rw [h1]
    simp only [Option.some_bind]
    unfold backspace getLine
    dsimp only
    rw [if_neg (by omega)]
    rw [if_pos (Nat.succ_pos a.cursor_y)]
    rw [hget1]
    dsimp only
    try simp only [Nat.add_sub_cancel]
    rw [hbufEq, hgetprev]
    dsimp only
    try simp only [Option.map_some]
    rw [List.take_append_drop, List.set_set, set_get?_self a.buffer a.cursor_y line hrow]
    rfl
  rcases Option.map_eq_some'.mp hmain with ⟨a2, hb, hbuf⟩
  have hrow' : a.buffer[a.cursor_y]? = some line := by
    rw [← List.get?_eq_getElem?]; exact hrow
  refine ⟨hmain, ?_, ?_⟩ <;> rw [hb] <;> simp [hbuf, hrow, hrow']

/-- C3 witness: on buffer `["abc"]` with cursor (0,3), split followed by
join gives back `["abc"]`. -/
theorem split_join_round_trip_witness :
    ((new_line attoAbc).bind backspace).map Atto.buffer = some attoAbc.buffer :=
  (split_join_round_trip attoAbc ['a', 'b', 'c'] (by decide) (by decide)).1

/-- C4: with the cursor on a valid row, every buffer operation —
insert-char (`input_char`), split-line (`new_line`), delete-char and
join-with-previous (both `backspace`) — leaves the buffer non-empty. -/
theorem buffer_ops_keep_buffer_nonempty (a : Atto) (h : a.cursor_y < a.buffer.length) :
    (∀ (c : Char) (a' : Atto), input_char a c = some a' → 1 ≤ a'.buffer.length) ∧
    (∀ a' : Atto, new_line a = some a' → 1 ≤ a'.buffer.length) ∧
    (∀ a' : Atto, backspace a = some a' → 1 ≤ a'.buffer.length) := by
  refine ⟨?_, ?_, ?_⟩
  · intro c a' hk
    unfold input_char getLine checkedSub at hk
    repeat' split at hk
    all_goals (try (obtain ⟨-, hk⟩ := hk))
    all_goals (try (cases hk))
    all_goals (try simp_all [List.length_set, List.length_append, List.length_take,
      List.length_drop])
    all_goals omega
  · intro a' hk
    unfold new_line getLine at hk
    repeat' split at hk
    all_goals (try (obtain ⟨-, hk⟩ := hk))
    all_goals (try (cases hk))
    all_goals (try simp_all [List.length_set, List.length_append, List.length_take,
      List.length_drop])
    all_goals omega
  · intro a' hk
    unfold backspace getLine at hk
    repeat' split at hk
    all_goals (try (obtain ⟨-, hk⟩ := hk))
    all_goals (try (cases hk))
    all_goals (try simp_all [List.length_set, List.length_append, List.length_take,
      List.length_drop])
    all_goals omega

/-- C4 witness: the three operations evaluated on a concrete three-line
session all keep the buffer non-empty. -/
theorem buffer_ops_keep_buffer_nonempty_witness :
    1 ≤ ((input_char attoRowsW 'z').getD attoRowsW).buffer.length ∧
    1 ≤ ((new_line attoRowsW).getD attoRowsW).buffer.length ∧
    1 ≤ ((backspace attoRowsW).getD attoRowsW).buffer.length :=
  ⟨(buffer_ops_keep_buffer_nonempty attoRowsW (by decide)).1 'z'
      ((input_char attoRowsW 'z').getD attoRowsW) rfl,
   (buffer_ops_keep_buffer_nonempty attoRowsW (by decide)).2.1
      ((new_line attoRowsW).getD attoRowsW) rfl,
   (buffer_ops_keep_buffer_nonempty attoRowsW (by decide)).2.2
      ((backspace attoRowsW).getD attoRowsW) rfl⟩

/-- C5 counterexample: wheel scroll changes the cursor row without
re-clamping the column.  On buffer `["a", "bb"]` with cursor (1,2) and
scroll 1 the column invariant holds, but after one `scroll_up` the cursor
sits at (0,2) on the one-character line `"a"`. -/
theorem wheel_scroll_breaks_col_invariant :
    colOK attoScrollCE = true ∧ colOK (scroll_up attoScrollCE) = false := by
  decide

/-- C5 (amended): the row-changing operations `move_up`, `move_down`,
`page_up`, `page_down`, `new_line` and `backspace` re-clamp the cursor
column and so preserve the column invariant; wheel scroll
(`scroll_up`/`scroll_down`) is the exception, carrying the column
unchanged onto the new row. -/
theorem row_ops_preserve_col_invariant (a : Atto) (hcol : colOK a = true) :
    (∀ a' : Atto, move_up a = some a' → colOK a' = true) ∧
    (∀ a' : Atto, move_down a = some a' → colOK a' = true) ∧
    (∀ a' : Atto, page_up a = some a' → colOK a' = true) ∧
    (∀ a' : Atto, page_down a = some a' → colOK a' = true) ∧
    (∀ a' : Atto, new_line a = some a' → colOK a' = true) ∧
    (∀ a' : Atto, backspace a = some a' → colOK a' = true) := by
  refine ⟨?_, ?_, ?_, ?_, ?_, ?_⟩
  · intro a' hk
    unfold move_up getLine at hk
    repeat' split at hk
    all_goals (try (obtain ⟨-, hk⟩ := hk))
    all_goals (try (cases hk))
    all_goals (try simp_all [colOK])
  · intro a' hk
    unfold move_down getLine checkedSub at hk
    repeat' split at hk
    all_goals (try (obtain ⟨-, hk⟩ := hk))
    all_goals (try (cases hk))
    all_goals (try simp_all [colOK])
  · intro a' hk
    unfold page_up getLine at hk
    repeat' split at hk
    all_goals (try (obtain ⟨-, hk⟩ := hk))
    all_goals (try (cases hk))
    all_goals (try simp_all [colOK])
  · intro a' hk
    unfold page_down getLine checkedSub at hk
    repeat' split at hk
    all_goals (try (obtain ⟨-, hk⟩ := hk))
    all_goals (try (cases hk))
    all_goals (try simp_all [colOK])
  · intro a' hk
    unfold new_line getLine at hk
    repeat' split at hk
    all_goals (try (obtain ⟨-, hk⟩ := hk))
    all_goals (try (cases hk))
    all_goals (try simp_all [colOK])
  · intro a' hk
    unfold backspace getLine at hk
    by_cases hx : a.cursor_x > 0
    · rw [if_pos hx] at hk
      rcases hg : a.buffer.get? a.cursor_y with _ | line
      · rw [hg] at hk; cases hk
      · rw [hg] at hk
        dsimp only at hk
        by_cases hlt : a.cursor_x - 1 < line.length
        · rw [if_pos hlt] at hk
          injection hk with hk
          subst hk
          have hy := lt_length_of_get? hg
          simp only [colOK, decide_eq_true_eq]
          rw [List.get?_set_eq_of_lt _ hy]
          simp only [Option.getD_some, List.length_append, List.length_take,
            List.length_drop]
          omega
        · rw [if_neg hlt] at hk; cases hk
    · rw [if_neg hx] at hk
      by_cases hy0 : a.cursor_y > 0
      · rw [if_pos hy0] at hk
        rcases hg : a.buffer.get? a.cursor_y with _ | cur
        · rw [hg] at hk; cases hk
        · rw [hg] at hk
          dsimp only at hk
          rcases hp : (a.buffer.take a.cursor_y ++ a.buffer.drop (a.cursor_y + 1)).get?
              (a.cursor_y - 1) with _ | prev
          · rw [hp] at hk; cases hk
          · rw [hp] at hk
            dsimp only at hk
            injection hk with hk
            subst hk
            have hyp := lt_length_of_get? hp
            simp only [colOK, decide_eq_true_eq]
            rw [List.get?_set_eq_of_lt _ hyp]
            simp [List.length_append]
      · rw [if_neg hy0] at hk
        injection hk with hk
        subst hk
        exact hcol

/-- C5 witness: on a three-line session satisfying the column invariant,
the re-clamping operations keep it. -/
theorem row_ops_preserve_col_invariant_witness :
    colOK ((move_up attoRowsW).getD attoRowsW) = true ∧
    colOK ((page_down attoRowsW).getD attoRowsW) = true ∧
    colOK ((backspace attoRowsW).getD attoRowsW) = true :=
  ⟨(row_ops_preserve_col_invariant attoRowsW (by decide)).1
      ((move_up attoRowsW).getD attoRowsW) rfl,
   (row_ops_preserve_col_invariant attoRowsW (by decide)).2.2.2.1
      ((page_down attoRowsW).getD attoRowsW) rfl,
   (row_ops_preserve_col_invariant attoRowsW (by decide)).2.2.2.2.2
      ((backspace attoRowsW).getD attoRowsW) rfl⟩

/-- C6 counterexample: on buffer `["abcdef"]`, cursor (0,2), terminal
width 3, the row is valid and the column is within the line, yet
`input_char` is a no-op — its guard compares the column against
`terminal_width - 1`, not the line length. -/
theorem input_char_noop_within_bounds :
    attoNarrow.cursor_y < attoNarrow.buffer.length ∧
    attoNarrow.cursor_x ≤ ((attoNarrow.buffer.get? attoNarrow.cursor_y).getD []).length ∧
    input_char attoNarrow 'z' = some attoNarrow := by
  decide

/-- C6 (amended): `input_char(row, col, ch)` inserts `ch` at offset `col`
when the row is valid, `col < terminal_width - 1`, and `col` is within
the line; it is a no-op when the row is out of bounds or when
`col ≥ terminal_width - 1` (even with `col` in bounds); and it panics when
the guards pass but `col` exceeds the line length. -/
theorem input_char_width_guard (a : Atto) (c : Char) :
    (a.buffer.get? a.cursor_y = none → input_char a c = some a) ∧
    (∀ line : List Char, a.buffer.get? a.cursor_y = some line → 1 ≤ a.terminal_width →
      ((a.cursor_x < a.terminal_width - 1 → a.cursor_x ≤ line.length →
          input_char a c = some { a with
            buffer := a.buffer.set a.cursor_y
              (line.take a.cursor_x ++ c :: line.drop a.cursor_x),
            cursor_x := a.cursor_x + 1 }) ∧
       (¬ a.cursor_x < a.terminal_width - 1 → input_char a c = some a) ∧
       (a.cursor_x < a.terminal_width - 1 → line.length < a.cursor_x →
          input_char a c = none))) := by
  refine ⟨?_, ?_⟩
  · intro h0
    unfold input_char
    rw [if_neg (by have := List.get?_eq_none.mp h0; omega)]
  · intro line hline hw
    have hy : a.cursor_y < a.buffer.length := lt_length_of_get? hline
    have hcs : checkedSub a.terminal_width 1 = some (a.terminal_width - 1) := by
      unfold checkedSub
      rw [if_pos hw]
    refine ⟨?_, ?_, ?_⟩
    · intro h1 h2
      unfold input_char getLine
      rw [if_pos hy, hcs]
      dsimp only
      rw [if_pos h1, hline]
      dsimp only
      rw [if_pos h2]
    · intro h1
      unfold input_char getLine
      rw [if_pos hy, hcs]
      dsimp only
      rw [if_neg h1]
    · intro h1 h2
      unfold input_char getLine
      rw [if_pos hy, hcs]
      dsimp only
      rw [if_pos h1, hline]
      dsimp only
      rw [if_neg (by omega)]

/-- C6 witness: an in-bounds end-of-line insertion on a wide terminal
really inserts the character. -/
theorem input_char_width_guard_witness :
    (input_char attoInsertW 'z').map Atto.buffer = some [['a', 'z']] := by
  rw [((input_char_width_guard attoInsertW 'z').2 ['a'] (by decide) (by decide)).1
    (by decide) (by decide)]
  rfl

/-- C7 counterexample: with buffer length 5, height 1, scroll 1 and the
cursor on row 4 — far below the one-line window — `scroll_up` still moves
the cursor to row 3, although row 3 is not inside the new window `[0, 1)`;
the claim would leave the cursor row unchanged. -/
theorem wheel_scroll_moves_cursor_outside_window :
    (scroll_up attoWheelCE).scroll_offset = 0 ∧
    (scroll_up attoWheelCE).cursor_y = 3 ∧
    ¬ (scroll_up attoWheelCE).cursor_y <
        (scroll_up attoWheelCE).scroll_offset + attoWheelCE.terminal_height := by
  decide

/-- C7 (amended): a wheel-scroll event adjusts the scroll offset by ±1
clamped at `[0, buffer_len - height]`; when the scroll moves, the cursor
row moves by the same delta whenever that keeps it inside
`[0, buffer_len - 1]` (up: row > 0, down: row < buffer_len - 1),
regardless of the visible window. -/
theorem wheel_scroll_exact_behavior (a : Atto) :
    (scroll_up a).scroll_offset = a.scroll_offset - 1 ∧
    (scroll_up a).cursor_y =
      (if 0 < a.scroll_offset ∧ 0 < a.cursor_y then a.cursor_y - 1 else a.cursor_y) ∧
    (scroll_down a).scroll_offset =
      (if a.scroll_offset + a.terminal_height < a.buffer.length then a.scroll_offset + 1
       else a.scroll_offset) ∧
    (scroll_down a).cursor_y =
      (if a.scroll_offset + a.terminal_height < a.buffer.length ∧
          a.cursor_y < a.buffer.length - 1 then a.cursor_y + 1
       else a.cursor_y) := by
  unfold scroll_up scroll_down
  refine ⟨?_, ?_, ?_, ?_⟩ <;> (repeat' split) <;> simp_all <;> omega

/-- C8 counterexample: the Normal-state dispatch is NOT independent of
the session capability flag.  In a vim-mode session in Normal state
(command mode off), the Up arrow is silently ignored, while the claimed
resolution order — bindings, then structural keys, then printable — would
move the cursor up. -/
theorem vim_mode_ignores_normal_dispatch :
    attoVim.vim_mode = true ∧ attoVim.command_mode = false ∧
    key_step attoVim .up .NONE true true [] = some (.cont attoVim) ∧
    spec_normal_step attoVim .up .NONE true true [] ≠ some (.cont attoVim) := by
  decide

/-- C8 (amended): when the session capability flag (`vim_mode`) is false,
each Normal-state key event is resolved exactly by first-match against
(a) the active KeyBindings table in order quit, save, move-up/down/left/
right, then (b) the fixed structural keys (arrows, Ctrl+r reload, tab,
page up/down, backspace, enter), then (c) printable character →
insert-char, and unmatched events are ignored.  When `vim_mode` is true
this dispatch is not consulted at all. -/
theorem normal_dispatch_first_match (a : Atto) (code : KeyCode) (mods : KeyModifiers)
    (saveOk readOk : Bool) (fileLines : List (List Char)) (hvim : a.vim_mode = false) :
    key_step a code mods saveOk readOk fileLines =
      spec_normal_step a code mods saveOk readOk fileLines := by
  unfold key_step
  rw [if_neg (by simp [hvim])]
  exact normal_key_step_eq_spec a code mods saveOk readOk fileLines

/-- C8 witness: on a concrete non-vim session the code dispatch and the
spec's ordered resolution agree on the Up arrow. -/
theorem normal_dispatch_first_match_witness :
    key_step attoNoVim .up .NONE true true [] =
      spec_normal_step attoNoVim .up .NONE true true [] :=
  normal_dispatch_first_match attoNoVim .up .NONE true true [] rfl

/-- C9: on buffer `["abc"]` with the cursor at (0,3), the buffer-level
`split_line(0,3)` produces `["abc", ""]` — and being a function of the
line list alone it leaves the cursor untouched; the full `new_line`
session operation produces the same buffer. -/
theorem split_line_scenario_abc :
    split_line [['a', 'b', 'c']] 0 3 = some [['a', 'b', 'c'], []] ∧
    (new_line attoAbc).map Atto.buffer = some [['a', 'b', 'c'], []] := by
  decide

/-- C10: in command-line mode, typing `:` never appends to the command
input — it toggles command mode off and clears the accumulated input —
and consequently `command_input` never contains `:` in any reachable
session state. -/
theorem colon_never_in_command_input :
    (∀ (a : Atto) (saveOk : Bool), a.command_mode = true →
        vim_key_step a (.char ':') saveOk =
          some (.cont { a with command_mode := false, command_input := [] })) ∧
    (∀ a : Atto, Reachable a → ':' ∉ a.command_input) := by
  constructor
  · intro a saveOk hm
    simp only [vim_key_step, if_pos rfl]
    unfold toggle_command_mode
    rw [hm]
    simp
  · intro a hr
    exact reachable_no_colon hr

/-- C10 witness: typing `:` in a concrete command-mode session exits
command mode and discards the pending input, and the startup state's
command input contains no `:`. -/
theorem colon_never_in_command_input_witness :
    vim_key_step attoCmdW (.char ':') true =
      some (.cont { attoCmdW with command_mode := false, command_input := [] }) ∧
    ':' ∉ attoStart.command_input :=
  ⟨colon_never_in_command_input.1 attoCmdW true rfl,
   colon_never_in_command_input.2 attoStart (Reachable.init none "atto".data false 80 24 [])⟩
